import Mathlib

/-!
Verification of the regression-runner core library (scripts/lib.py):
the test-list resolver `process_regression_list`, the single command
executor (`run_cmd` in the source, modelled here as `runCmd` over an
explicit process-behaviour environment), and the parallel command
executor `run_parallel_cmd`.

Subprocess effects are modelled by an explicit environment: each command
is paired with the behaviour of its underlying process (launch failure,
timeout, or completion with an output string and a return code), and the
executors are translated as pure functions from that environment to a
result together with the ordered list of observable events (log calls,
the string handed to the shell, kill, "stty sane").  The Python local
variable `output` in the parallel executor's wait loop is modelled as an
`Option String` that starts out `none` (unbound); reading it while it is
`none` is Python's `UnboundLocalError`, modelled as a crash result.
-/

/-- Sentinel exit code for success from the top of scripts/lib.py. -/
def RET_SUCCESS : Int := 0

/-- Recoverable-failure exit code (the `sys.exit(RET_FAIL)` sites). -/
def RET_FAIL : Int := 1

/-- Fatal sentinel (declared in the source, unused by these functions). -/
def RET_FATAL : Int := -1

/-- One test node of a regression test list: the fields the resolver
reads (`entry['test']` and `entry['iterations']`).  Further metadata is
passed through opaquely and plays no role in the resolver's control
flow, so it is omitted from the model. -/
structure TestEntry where
  test : String
  iterations : Int
  deriving Repr, DecidableEq

/-- A node of a test-list document: either a test entry, or a reference
to a sub-document.  The YAML loader is an external collaborator, so a
reference node carries the already-loaded sub-document directly (the
`<riscv_dv_root>` path substitution only affects which file is loaded,
not the resolver's control flow on the loaded tree). -/
inductive Node where
  | imp (sub : List Node)
  | testNode (e : TestEntry)

/-- The override step of the resolver (source lines 194-195): when the
caller's `iterations` argument is positive and the entry's own
`iterations` is positive, the entry's count is replaced by the caller's;
otherwise the entry is left unchanged. -/
def applyOverride (iterations : Int) (e : TestEntry) : TestEntry :=
  if iterations > 0 ∧ e.iterations > 0 then { e with iterations := iterations } else e

/-- Translation of `process_regression_list(testlist, test, iterations,
matched_list, riscv_dv_root)`: walk the document in order; a reference
node is resolved recursively into the same accumulator; a test node is
matched against `test.split(',')` or the sentinel selection "all", its
iteration count is overridden by `applyOverride`, and it is appended to
the accumulator when the resulting count is positive. -/
def process_regression_list : List Node → String → Int → List TestEntry → List TestEntry
  | [], _, _, matched_list => matched_list
  | Node.imp sub :: rest, test, iterations, matched_list =>
      process_regression_list rest test iterations
        (process_regression_list sub test iterations matched_list)
  | Node.testNode e :: rest, test, iterations, matched_list =>
      if e.test ∈ test.splitOn "," ∨ test = "all" then
        if (applyOverride iterations e).iterations > 0 then
          process_regression_list rest test iterations
            (matched_list ++ [applyOverride iterations e])
        else
          process_regression_list rest test iterations matched_list
      else
        process_regression_list rest test iterations matched_list

/-- `true` exactly on reference (sub-list) nodes. -/
def Node.isImportNode : Node → Bool
  | Node.imp _ => true
  | Node.testNode _ => false

/-- Spec-side resolution of a single node of an import-free document:
the entry survives exactly when its iteration count after the override
step is positive. -/
def resolveEntry (iters : Int) : Node → Option TestEntry
  | Node.imp _ => none
  | Node.testNode e =>
      if (applyOverride iters e).iterations > 0 then some (applyOverride iters e) else none

/-- Spec-side statement of resolution for import-free documents with
selection "all": keep, in document order, exactly the entries whose
iteration count after the override step is positive. -/
def specResolveNoImport (iters : Int) (doc : List Node) : List TestEntry :=
  doc.filterMap (resolveEntry iters)

/-- C5: import expansion is order-preserving and depth-first: resolving
the root document [testA, import(sub), testB] with sub = [testC], all
iteration counts positive, selection "all", yields [testA, testC, testB]
— the sub-document's matches appear at the position of the reference
node, before the nodes that follow it in the same document. -/
theorem C5_import_expansion_order :
    process_regression_list
      [Node.testNode ⟨"testA", 1⟩, Node.imp [Node.testNode ⟨"testC", 1⟩],
       Node.testNode ⟨"testB", 1⟩] "all" 0 []
    = [⟨"testA", 1⟩, ⟨"testC", 1⟩, ⟨"testB", 1⟩] := by
  simp +decide [process_regression_list, applyOverride]

/-- C10: the resolver only appends to the caller's accumulator: for
every call (import expansions included), the result is the accumulator,
unchanged and in order, followed by zero or more newly matched entries. -/
theorem C10_accumulator_append_only (l : List Node) (test : String) (iters : Int)
    (acc : List TestEntry) :
    ∃ newEntries, process_regression_list l test iters acc = acc ++ newEntries := by
  induction l, test, iters, acc using process_regression_list.induct with
  | case1 test iters ml =>
      exact ⟨[], by simp [process_regression_list]⟩
  | case2 sub rest test iters ml ih1 ih2 =>
      obtain ⟨n1, h1⟩ := ih1
      obtain ⟨n2, h2⟩ := ih2
      refine ⟨n1 ++ n2, ?_⟩
      rw [process_regression_list, h2, h1, List.append_assoc]
  | case3 e rest test iters ml hm hpos ih =>
      obtain ⟨n1, h1⟩ := ih
      refine ⟨applyOverride iters e :: n1, ?_⟩
      rw [process_regression_list, if_pos hm, if_pos hpos, h1, List.append_assoc]
      rfl
  | case4 e rest test iters ml hm hpos ih =>
      obtain ⟨n1, h1⟩ := ih
      refine ⟨n1, ?_⟩
      rw [process_regression_list, if_pos hm, if_neg hpos, h1]
  | case5 e rest test iters ml hm ih =>
      obtain ⟨n1, h1⟩ := ih
      refine ⟨n1, ?_⟩
      rw [process_regression_list, if_neg hm, h1]

/-- C3: resolving an import-free document with selection "all" appends
to the accumulator exactly the entries whose iteration count after the
override step is positive, in document order; and any entry appended by
any resolver call has a positive iteration count, so an entry whose
declared count is zero or negative (which the override step never
touches) appears in no resolved output for any selection or override. -/
theorem C3_resolve_all_no_imports :
    (∀ (doc : List Node) (iters : Int) (acc : List TestEntry),
        (∀ n ∈ doc, n.isImportNode = false) →
        process_regression_list doc "all" iters acc = acc ++ specResolveNoImport iters doc) ∧
    (∀ (doc : List Node) (test : String) (iters : Int) (acc : List TestEntry),
        ∀ e' ∈ process_regression_list doc test iters acc, e' ∉ acc →
        0 < e'.iterations) := by
  constructor
  · intro doc
    induction doc with
    | nil =>
        intro iters acc _
        simp [process_regression_list, specResolveNoImport]
    | cons n rest ih =>
        intro iters acc hno
        match n with
        | Node.imp sub =>
            have hcon := hno (Node.imp sub) (List.mem_cons_self _ _)
            simp [Node.isImportNode] at hcon
        | Node.testNode e =>
            have hrest : ∀ m ∈ rest, m.isImportNode = false :=
              fun m hm => hno m (List.mem_cons_of_mem _ hm)
            rw [process_regression_list, if_pos (Or.inr rfl)]
            by_cases hpos : (applyOverride iters e).iterations > 0
            · rw [if_pos hpos, ih iters (acc ++ [applyOverride iters e]) hrest]
              simp [specResolveNoImport, resolveEntry, hpos]
            · rw [if_neg hpos, ih iters acc hrest]
              simp [specResolveNoImport, resolveEntry, hpos]
  · intro doc test iters acc
    induction doc, test, iters, acc using process_regression_list.induct with
    | case1 t i ml =>
        intro e' h hn
        rw [process_regression_list] at h
        exact absurd h hn
    | case2 sub rest t i ml ih1 ih2 =>
        intro e' h hn
        rw [process_regression_list] at h
        by_cases hin : e' ∈ process_regression_list sub t i ml
        · exact ih1 e' hin hn
        · exact ih2 e' h hin
    | case3 e rest t i ml hm hpos ih =>
        intro e' h hn
        rw [process_regression_list, if_pos hm, if_pos hpos] at h
        by_cases hin : e' ∈ ml ++ [applyOverride i e]
        · rcases List.mem_append.mp hin with h1 | h2
          · exact absurd h1 hn
          · have he : e' = applyOverride i e := by simpa using h2
            rw [he]
            exact hpos
        · exact ih e' h hin
    | case4 e rest t i ml hm hpos ih =>
        intro e' h hn
        rw [process_regression_list, if_pos hm, if_neg hpos] at h
        exact ih e' h hn
    | case5 e rest t i ml hm ih =>
        intro e' h hn
        rw [process_regression_list, if_neg hm] at h
        exact ih e' h hn

/-- Witness for C3 at concrete inputs: a two-entry import-free document
resolved with "all" and override 5, and a zero-iteration entry appearing
in no output for an unrelated selection and override 7. -/
theorem C3_resolve_all_no_imports_witness :
    (process_regression_list [Node.testNode ⟨"a", 2⟩, Node.testNode ⟨"b", 0⟩] "all" 5 []
      = [] ++ specResolveNoImport 5 [Node.testNode ⟨"a", 2⟩, Node.testNode ⟨"b", 0⟩]) ∧
    (0 : Int) < (⟨"a", (7 : Int)⟩ : TestEntry).iterations :=
  ⟨C3_resolve_all_no_imports.1 [Node.testNode ⟨"a", 2⟩, Node.testNode ⟨"b", 0⟩] 5 []
      (by decide),
   C3_resolve_all_no_imports.2 [Node.testNode ⟨"a", 2⟩] "all" 7 [] ⟨"a", 7⟩
      (by
        rw [process_regression_list, if_pos (Or.inr rfl)]
        simp +decide [applyOverride, process_regression_list])
      (by simp)⟩

/-- C4: for a matched entry with positive declared count K: a positive
override N makes the resolved entry's count N, and override 0 keeps K. -/
theorem C4_iteration_override (e : TestEntry) (test : String) (n : Int)
    (acc : List TestEntry)
    (hmatch : e.test ∈ test.splitOn "," ∨ test = "all") (hK : 0 < e.iterations) :
    (0 < n → process_regression_list [Node.testNode e] test n acc
        = acc ++ [{ e with iterations := n }]) ∧
    (n = 0 → process_regression_list [Node.testNode e] test n acc = acc ++ [e]) := by
  constructor
  · intro hn
    have hov : applyOverride n e = { e with iterations := n } := by
      rw [applyOverride, if_pos ⟨hn, hK⟩]
    rw [process_regression_list, if_pos hmatch, hov]
    rw [if_pos (show ({ e with iterations := n } : TestEntry).iterations > 0 from hn)]
    rw [process_regression_list]
  · intro hn
    have hov : applyOverride n e = e := by
      rw [applyOverride, if_neg (by simp [hn])]
    rw [process_regression_list, if_pos hmatch, hov, if_pos hK]
    rw [process_regression_list]

/-- Witness for C4 at a concrete entry with K = 3, selection "all",
overrides 5 and 0. -/
theorem C4_iteration_override_witness :
    process_regression_list [Node.testNode ⟨"t", 3⟩] "all" 5 []
      = [] ++ [{ (⟨"t", 3⟩ : TestEntry) with iterations := 5 }] ∧
    process_regression_list [Node.testNode ⟨"t", 3⟩] "all" 0 []
      = [] ++ [(⟨"t", 3⟩ : TestEntry)] :=
  ⟨(C4_iteration_override ⟨"t", 3⟩ "all" 5 [] (Or.inr rfl) (by decide)).1 (by decide),
   (C4_iteration_override ⟨"t", 3⟩ "all" 0 [] (Or.inr rfl) (by decide)).2 rfl⟩

/-- Behaviour of one launched child process, as observed by a wait with
a timeout: either the wait raises TimeoutExpired, or the process
completes within the window with a merged stdout+stderr string and a
return code (zero, positive, or negative for signal termination). -/
inductive ProcBehavior where
  | timedOut
  | completed (output : String) (returncode : Int)
  deriving Repr, DecidableEq

/-- Outcome of the Popen launch itself: the shell could not be started,
or a child was spawned with the given behaviour. -/
inductive SpawnOutcome where
  | launchFailure
  | spawned (beh : ProcBehavior)
  deriving Repr, DecidableEq

/-- Observable events of the executors, in program order: the log calls
of the source, the shell string handed to Popen, the kill of a timed-out
child, and the unconditional "stty sane" of the parallel wait loop. -/
inductive LogEvent where
  | debugCmd (cmd : String)
  | popenCall (shellString : String)
  | launchFailLog
  | timeoutLog (timeout_s : Int) (cmd : String)
  | outputInfo (output : String)
  | returnCodeError (rc : Int) (cmd : String)
  | killEvent
  | sttySane
  | debugOutput (output : String)
  | progressLog (i n : Nat)
  | waitingFor (cmd : String)
  deriving Repr, DecidableEq

/-- `true` on the events produced by a `logging.error` call. -/
def LogEvent.isErrorLog : LogEvent → Bool
  | LogEvent.launchFailLog => true
  | LogEvent.timeoutLog _ _ => true
  | LogEvent.returnCodeError _ _ => true
  | _ => false

/-- How a call of the single executor ends: `exited` when the whole
process is terminated (`sys.exit`), `returned` with the captured output
otherwise. -/
inductive RunResult where
  | exited (code : Int)
  | returned (output : String)
  deriving Repr, DecidableEq

/-- Translation of the single command executor `run_cmd(cmd, timeout_s,
exit_on_error, check_return_code)` of the source: log the command, hand
"exec " ++ cmd to the shell; on launch failure log and terminate the
whole process with RET_FAIL; on timeout log, take the empty string as
output and kill the child (the unreaped return code reads back as None,
so the return-code check cannot fire); then, when the return code is
truthy, checking is on and the code is strictly positive, log the output
and an error and, if `exit_on_error`, terminate the whole process with
RET_FAIL; otherwise return the captured output. -/
def runCmd (cmd : String) (timeout_s : Int) (spawn : SpawnOutcome)
    (exit_on_error : Bool) (check_return_code : Bool) : RunResult × List LogEvent :=
  match spawn with
  | SpawnOutcome.launchFailure =>
      (RunResult.exited RET_FAIL,
       [LogEvent.debugCmd cmd, LogEvent.popenCall ("exec " ++ cmd), LogEvent.launchFailLog])
  | SpawnOutcome.spawned ProcBehavior.timedOut =>
      (RunResult.returned "",
       [LogEvent.debugCmd cmd, LogEvent.popenCall ("exec " ++ cmd),
        LogEvent.timeoutLog timeout_s cmd, LogEvent.killEvent, LogEvent.debugOutput ""])
  | SpawnOutcome.spawned (ProcBehavior.completed output rc) =>
      if rc ≠ 0 ∧ check_return_code = true ∧ rc > 0 then
        if exit_on_error then
          (RunResult.exited RET_FAIL,
           [LogEvent.debugCmd cmd, LogEvent.popenCall ("exec " ++ cmd),
            LogEvent.outputInfo output, LogEvent.returnCodeError rc cmd])
        else
          (RunResult.returned output,
           [LogEvent.debugCmd cmd, LogEvent.popenCall ("exec " ++ cmd),
            LogEvent.outputInfo output, LogEvent.returnCodeError rc cmd,
            LogEvent.debugOutput output])
      else
        (RunResult.returned output,
         [LogEvent.debugCmd cmd, LogEvent.popenCall ("exec " ++ cmd),
          LogEvent.debugOutput output])

/-- How the parallel executor's wait loop ends: normally; terminating
the whole process via `sys.exit` (return-code error with exit-on-error
set); or crashing with Python's UnboundLocalError because the local
`output` is read before any wait has assigned it. -/
inductive ParResult where
  | normal
  | exitedEarly (code : Int)
  | crashedUnboundOutput
  deriving Repr, DecidableEq

/-- The wait loop of `run_parallel_cmd` (source lines 154-170), one
iteration per launched child in submission order.  `lastCmd` is the
Python loop variable `cmd` left over from the launch loop (the last
command of the batch), which the timeout and return-code error messages
reference; `output0` is the current value of the Python local `output`,
`none` while it is still unbound.  A timed-out child is killed and its
unreaped return code reads back as None, so the return-code check is
skipped for it; the final `logging.debug(output)` of the iteration
crashes when `output` is still unbound. -/
def runParallelGo (timeout_s : Int) (exit_on_error check_return_code : Bool)
    (lastCmd : String) (n : Nat) :
    Nat → List (String × ProcBehavior) → Option String → ParResult × List LogEvent
  | _, [], _ => (ParResult.normal, [])
  | i, (cmd, beh) :: rest, output0 =>
    match beh with
    | ProcBehavior.timedOut =>
        match output0 with
        | none =>
            (ParResult.crashedUnboundOutput,
             [LogEvent.progressLog i n, LogEvent.waitingFor cmd,
              LogEvent.timeoutLog timeout_s lastCmd, LogEvent.killEvent,
              LogEvent.sttySane])
        | some o =>
            let r := runParallelGo timeout_s exit_on_error check_return_code lastCmd n
                       (i + 1) rest (some o)
            (r.fst,
             [LogEvent.progressLog i n, LogEvent.waitingFor cmd,
              LogEvent.timeoutLog timeout_s lastCmd, LogEvent.killEvent,
              LogEvent.sttySane, LogEvent.debugOutput o] ++ r.snd)
    | ProcBehavior.completed out rc =>
        if rc ≠ 0 ∧ check_return_code = true ∧ rc > 0 then
          if exit_on_error then
            (ParResult.exitedEarly RET_FAIL,
             [LogEvent.progressLog i n, LogEvent.waitingFor cmd,
              LogEvent.outputInfo out, LogEvent.returnCodeError rc lastCmd])
          else
            let r := runParallelGo timeout_s exit_on_error check_return_code lastCmd n
                       (i + 1) rest (some out)
            (r.fst,
             [LogEvent.progressLog i n, LogEvent.waitingFor cmd,
              LogEvent.outputInfo out, LogEvent.returnCodeError rc lastCmd,
              LogEvent.sttySane, LogEvent.debugOutput out] ++ r.snd)
        else
          let r := runParallelGo timeout_s exit_on_error check_return_code lastCmd n
                     (i + 1) rest (some out)
          (r.fst,
           [LogEvent.progressLog i n, LogEvent.waitingFor cmd,
            LogEvent.sttySane, LogEvent.debugOutput out] ++ r.snd)

/-- Translation of `run_parallel_cmd(cmd_list, timeout_s, exit_on_error,
check_return_code)`: first launch every command (handing "exec " ++ cmd
to the shell for each, in list order), then run the wait loop over the
children in submission order, with the Python local `output` initially
unbound. -/
def run_parallel_cmd (cmd_list : List (String × ProcBehavior)) (timeout_s : Int)
    (exit_on_error : Bool) (check_return_code : Bool) : ParResult × List LogEvent :=
  let body := runParallelGo timeout_s exit_on_error check_return_code
                ((cmd_list.map Prod.fst).getLastD "") cmd_list.length 0 cmd_list none
  (body.fst, cmd_list.map (fun p => LogEvent.popenCall ("exec " ++ p.fst)) ++ body.snd)

/-- C1 (bug evidence): in a batch whose first command times out and
whose second exits quickly with code 0, the wait loop crashes reading
the still-unbound local `output` right after the first wait: the batch
is aborted, the second command is never waited on and its output is
never logged — contradicting the documented continue-past-timeout
behaviour that the source's own timeout handler attempts (and that
`run_cmd` implements by assigning `output = ""` before continuing). -/
theorem C1_first_timeout_crashes_batch :
    (run_parallel_cmd [("cmd1", ProcBehavior.timedOut),
                       ("cmd2", ProcBehavior.completed "ok" 0)] 1 false true).fst
      = ParResult.crashedUnboundOutput ∧
    LogEvent.waitingFor "cmd2"
      ∉ (run_parallel_cmd [("cmd1", ProcBehavior.timedOut),
                           ("cmd2", ProcBehavior.completed "ok" 0)] 1 false true).snd ∧
    LogEvent.debugOutput "ok"
      ∉ (run_parallel_cmd [("cmd1", ProcBehavior.timedOut),
                           ("cmd2", ProcBehavior.completed "ok" 0)] 1 false true).snd := by
  refine ⟨rfl, ?_, ?_⟩ <;> decide

/-- C2: when the shell itself cannot be started, the single executor
terminates the whole process with the failure exit code and returns no
output (the result is an exit, not a returned string), for every command
and every flag combination. -/
theorem C2_launch_failure_fatal (cmd : String) (timeout_s : Int) (e c : Bool) :
    (runCmd cmd timeout_s SpawnOutcome.launchFailure e c).fst = RunResult.exited RET_FAIL ∧
    ∀ out, (runCmd cmd timeout_s SpawnOutcome.launchFailure e c).fst
        ≠ RunResult.returned out := by
  exact ⟨rfl, fun out h => by simp [runCmd] at h⟩

/-- C6: a command completing with a strictly positive return code under
return-code checking terminates the whole process with RET_FAIL when
`exit_on_error` is set, and otherwise returns the captured output
without terminating the process. -/
theorem C6_positive_code_exit_policy (cmd out : String) (timeout_s rc : Int) (e : Bool)
    (hrc : 0 < rc) :
    (runCmd cmd timeout_s (SpawnOutcome.spawned (ProcBehavior.completed out rc)) e true).fst
      = if e then RunResult.exited RET_FAIL else RunResult.returned out := by
  have hcond : rc ≠ 0 ∧ (true : Bool) = true ∧ rc > 0 := ⟨by omega, rfl, hrc⟩
  cases e with
  | false => simp [runCmd, hcond]
  | true => simp [runCmd, hcond]

/-- Witness for C6 at rc = 2 with both values of `exit_on_error`. -/
theorem C6_positive_code_exit_policy_witness :
    ((0 : Int) < 2 ∧
      (runCmd "x" 9 (SpawnOutcome.spawned (ProcBehavior.completed "o" 2)) true true).fst
        = if true then RunResult.exited RET_FAIL else RunResult.returned "o") ∧
    (runCmd "x" 9 (SpawnOutcome.spawned (ProcBehavior.completed "o" 2)) false true).fst
        = if false then RunResult.exited RET_FAIL else RunResult.returned "o" :=
  ⟨⟨by decide, C6_positive_code_exit_policy "x" "o" 9 2 true (by decide)⟩,
   C6_positive_code_exit_policy "x" "o" 9 2 false (by decide)⟩

/-- C7: a command exceeding its timeout makes the single executor kill
the child, return the empty string, and continue (no process exit), for
every `exit_on_error` and `check_return_code` combination; the full
event list is the debug log, the shell launch, the timeout error log,
the kill, and the debug log of the empty output. -/
theorem C7_timeout_returns_empty (cmd : String) (timeout_s : Int) (e c : Bool) :
    runCmd cmd timeout_s (SpawnOutcome.spawned ProcBehavior.timedOut) e c
      = (RunResult.returned "",
         [LogEvent.debugCmd cmd, LogEvent.popenCall ("exec " ++ cmd),
          LogEvent.timeoutLog timeout_s cmd, LogEvent.killEvent,
          LogEvent.debugOutput ""]) := rfl

/-- C8: a command completing with return code zero or negative never
takes the error branch of the single executor: the call returns the
captured output (the process is not terminated) and no `logging.error`
event is produced, for every flag combination. -/
theorem C8_nonpositive_code_no_error (cmd out : String) (timeout_s rc : Int) (e c : Bool)
    (hrc : rc ≤ 0) :
    (runCmd cmd timeout_s (SpawnOutcome.spawned (ProcBehavior.completed out rc)) e c).fst
      = RunResult.returned out ∧
    ∀ ev ∈ (runCmd cmd timeout_s
              (SpawnOutcome.spawned (ProcBehavior.completed out rc)) e c).snd,
      ev.isErrorLog = false := by
  have hcond : ¬(rc ≠ 0 ∧ c = true ∧ rc > 0) := by
    rintro ⟨-, -, h⟩
    omega
  rw [runCmd]
  rw [if_neg hcond]
  refine ⟨rfl, ?_⟩
  intro ev hev
  simp at hev
  rcases hev with h | h | h <;> rw [h] <;> rfl

/-- Witness for C8 at rc = -9 (signal termination) with checking and
exit-on-error both enabled. -/
theorem C8_nonpositive_code_no_error_witness :
    (-9 : Int) ≤ 0 ∧
    ((runCmd "x" 9 (SpawnOutcome.spawned (ProcBehavior.completed "o" (-9))) true true).fst
        = RunResult.returned "o" ∧
      ∀ ev ∈ (runCmd "x" 9
                (SpawnOutcome.spawned (ProcBehavior.completed "o" (-9))) true true).snd,
        ev.isErrorLog = false) :=
  ⟨by decide, C8_nonpositive_code_no_error "x" "o" 9 (-9) true true (by decide)⟩

/-- C9: both executors hand "exec " ++ cmd, not cmd, to the shell: the
Popen event of the single executor carries the exec-prefixed string for
every spawn outcome and flag combination, and the parallel executor's
launch phase produces an exec-prefixed Popen event for every command of
the batch. -/
theorem C9_exec_prefix_launch (cmd : String) (timeout_s : Int) (sp : SpawnOutcome)
    (e c : Bool) (cmds : List (String × ProcBehavior)) (p : String × ProcBehavior)
    (hp : p ∈ cmds) :
    LogEvent.popenCall ("exec " ++ cmd) ∈ (runCmd cmd timeout_s sp e c).snd ∧
    LogEvent.popenCall ("exec " ++ p.fst) ∈ (run_parallel_cmd cmds timeout_s e c).snd := by
  constructor
  · rcases sp with _ | beh
    · simp [runCmd]
    · rcases beh with _ | ⟨out, rc⟩
      · simp [runCmd]
      · rw [runCmd]
        split
        · split <;> simp
        · simp
  · rw [run_parallel_cmd]
    refine List.mem_append.mpr (Or.inl ?_)
    exact List.mem_map.mpr ⟨p, hp, rfl⟩

/-- Witness for C9 at a concrete command and a concrete two-command
batch. -/
theorem C9_exec_prefix_launch_witness :
    LogEvent.popenCall ("exec " ++ "c") ∈ (runCmd "c" 9 SpawnOutcome.launchFailure true true).snd ∧
    LogEvent.popenCall ("exec " ++ ("a", ProcBehavior.completed "" 0).fst)
      ∈ (run_parallel_cmd [("a", ProcBehavior.completed "" 0),
                           ("b", ProcBehavior.completed "" 0)] 9 false true).snd :=
  C9_exec_prefix_launch "c" 9 SpawnOutcome.launchFailure true true
    [("a", ProcBehavior.completed "" 0), ("b", ProcBehavior.completed "" 0)]
    ("a", ProcBehavior.completed "" 0) (by decide)
